import Mathlib

/-!
# Verification of `marcdump` (TreeRex/marcdump)

A shallow embedding of `marcdump.go`: the selector-specification parser
(`getSelectionSpec` together with `selectionSpecRegexp`), the record matcher
(`selectionSpec.match`), the renderer (`printRecord` / `printDataField`), the
action resolver (`getActionFunction`) and the record-iteration loop of `main`.

The MARC21 decoder (`github.com/TreeRex/marc21`) and Go's `regexp` package are
external collaborators of this repository; they are modelled here by the record
interface and the regular-expression matching semantics they expose to the code
under verification: a record carries a leader, an ordered field-tag list, one
string value per control-field tag, and per data-field tag an ordered list of
occurrences, each with an indicator string and an ordered code/value subfield
list; a compiled Go regular expression is abstracted by the language of strings
it accepts when fully anchored, and `Regexp.MatchString` performs a substring
search over that language.
-/

set_option maxHeartbeats 1000000

namespace Marcdump

/-! ## Record model (interface of the external `marc21` library) -/

/-- One occurrence of a data field: an indicator string (two characters in
MARC21) and the ordered list of subfield code/value pairs of this occurrence. -/
structure DataOccurrence where
  indicators : String
  subfields : List (String × String)
  deriving Repr, DecidableEq

/-- A decoded MARC record as exposed to `marcdump`: a leader string, the
ordered list of field tags, the control-field values and the data-field
occurrences keyed by tag. -/
structure MarcRecord where
  leader : String
  fieldList : List String
  controlValues : List (String × String)
  dataFields : List (String × List DataOccurrence)
  deriving Repr, DecidableEq

/-- `marc21.IsControlFieldTag`: control fields are the tags of the reserved
numeric range, recognised by their first two characters being `"00"`. -/
def isControlFieldTag (tag : String) : Bool :=
  match tag.data with
  | '0' :: '0' :: _ => true
  | _ => false

/-- `record.GetControlField tag`: the value of a control field, or `none` when
the record has no such field (the Go accessor signals this with an error). -/
def MarcRecord.controlValue (r : MarcRecord) (tag : String) : Option String :=
  (r.controlValues.find? (fun p => p.1 == tag)).map (fun p => p.2)

/-- `record.GetDataField tag`: the occurrence list of a data field; an absent
field has no occurrences (`ValueCount` is then `0`). -/
def MarcRecord.dataOccurrences (r : MarcRecord) (tag : String) : List DataOccurrence :=
  ((r.dataFields.find? (fun p => p.1 == tag)).map (fun p => p.2)).getD []

/-- `field.GetNthSubfield code i` restricted to one occurrence: the value of
the first subfield with the given code, or `""` when the occurrence has no such
subfield (the Go accessor returns the empty string in that case). -/
def subfieldValue (occ : DataOccurrence) (code : String) : String :=
  ((occ.subfields.find? (fun p => p.1 == code)).map (fun p => p.2)).getD ""

/-- `field.GetSubfields i` restricted to one occurrence: the codes present in
this occurrence, in order. -/
def subfieldCodes (occ : DataOccurrence) : List String :=
  occ.subfields.map Prod.fst

/-! ## Go regular expressions (interface of the `regexp` package) -/

/-- A compiled Go regular expression, abstracted by its anchored language:
`accepts t` says the expression matches exactly the string `t`. -/
structure GoRegexp where
  accepts : String → Bool

/-- The contiguous segments of a character list (all `(l.drop i).take n`). -/
def segmentsOf (l : List Char) : List (List Char) :=
  (List.range (l.length + 1)).flatMap
    (fun i => (List.range (l.length + 1 - i)).map (fun n => (l.drop i).take n))

/-- All contiguous substrings of a string. -/
def substringsOf (s : String) : List String :=
  (segmentsOf s.data).map String.mk

/-- `Regexp.MatchString`: Go's matcher reports whether the string contains any
match of the expression, i.e. whether some contiguous substring is in the
expression's anchored language (substring search, no anchoring). -/
def reSearch (re : GoRegexp) (s : String) : Bool :=
  (substringsOf s).any re.accepts

/-! ## Selector specification (`selectionSpec`, `getSelectionSpec`) -/

/-- The compiled selector predicate of `marcdump.go` (`type selectionSpec`). -/
structure SelectionSpec where
  field : String
  subfield : String
  criterion : Option GoRegexp

/-- The errors `getSelectionSpec` can return: `errInvalidSelectorSpec` for a
selector that the anchored regular expression `selectionSpecRegexp` rejects,
and the error of `regexp.Compile` (carrying its diagnostic) for a selector
whose pattern part does not compile. -/
inductive SelectorError where
  | invalidSelectorSpec
  | patternCompileError (diag : String)
  deriving Repr, DecidableEq

/-- The character class `[0-9A-Za-z]` of `selectionSpecRegexp`. -/
def isAlnumChar (c : Char) : Bool :=
  ('0' ≤ c && c ≤ '9') || ('A' ≤ c && c ≤ 'Z') || ('a' ≤ c && c ≤ 'z')

/-- The character class `[0-9a-z]` of `selectionSpecRegexp`. -/
def isSubfieldChar (c : Char) : Bool :=
  ('0' ≤ c && c ≤ '9') || ('a' ≤ c && c ≤ 'z')

/-- The `(.+)` group of `selectionSpecRegexp` up to the `$` anchor: one or more
characters, where Go's `.` matches any character except a newline. -/
def parsePat (p : List Char) : Option String :=
  if p.isEmpty then none
  else if p.all (fun d => d != '\n') then some (String.mk p)
  else none

/-- The two optional groups `(?:_([0-9a-z]))?(?:=(.+))?$` of
`selectionSpecRegexp`, applied after the three field characters; returns the
subfield and pattern submatches (`""` for an unmatched group). -/
def parseTail (l : List Char) : Option (String × String) :=
  match l with
  | [] => some ("", "")
  | c0 :: rest0 =>
    if c0 = '=' then (parsePat rest0).map (fun ps => ("", ps))
    else if c0 = '_' then
      match rest0 with
      | [] => none
      | c :: rest =>
        if isSubfieldChar c then
          match rest with
          | [] => some (String.mk [c], "")
          | d :: p => if d = '=' then (parsePat p).map (fun ps => (String.mk [c], ps)) else none
        else none
    else none

/-- `selectionSpecRegexp.FindStringSubmatch`: the anchored expression
`^([0-9A-Za-z]{3})(?:_([0-9a-z]))?(?:=(.+))?$` applied to the selector,
returning the three submatches (field, subfield, pattern; `""` for an
unmatched optional group) or `none` when the selector does not match. -/
def parseSelectorGroups (s : String) : Option (String × String × String) :=
  if s.data.length < 3 then none
  else if !(s.data.take 3).all isAlnumChar then none
  else (parseTail (s.data.drop 3)).map (fun pr => (String.mk (s.data.take 3), pr.1, pr.2))

/-- `getSelectionSpec`, parameterised by the external `regexp.Compile`: an
empty selector yields the zero-value spec; otherwise the selector is matched
against `selectionSpecRegexp`, a failure to match is `errInvalidSelectorSpec`,
and a non-empty pattern submatch is compiled, its compile error being returned
as-is. -/
def getSelectionSpec (compile : String → Except String GoRegexp) (selectorOpt : String) :
    Except SelectorError SelectionSpec :=
  if selectorOpt = "" then Except.ok ⟨"", "", none⟩
  else
    match parseSelectorGroups selectorOpt with
    | none => Except.error SelectorError.invalidSelectorSpec
    | some (f, sub, pat) =>
      if pat = "" then Except.ok ⟨f, sub, none⟩
      else
        match compile pat with
        | Except.error e => Except.error (SelectorError.patternCompileError e)
        | Except.ok re => Except.ok ⟨f, sub, some re⟩

/-! ## Matching (`selectionSpec.match`) -/

/-- The criterion test shared by both branches of `match`: with no criterion a
(present) value suffices, with a criterion the value must contain a match. -/
def criterionOk (s : SelectionSpec) (v : String) : Bool :=
  match s.criterion with
  | none => true
  | some re => reSearch re v

/-- The subfield codes searched in one occurrence: the spec's subfield when one
is set, otherwise every code present in this occurrence (re-queried per
occurrence, as in the loop of `match`). -/
def candidateCodes (s : SelectionSpec) (occ : DataOccurrence) : List String :=
  if s.subfield = "" then subfieldCodes occ else [s.subfield]

/-- The data-field branch of `match`: scan the occurrences in order and within
each the candidate codes, succeeding on the first non-empty subfield value that
passes the criterion. -/
def dataFieldMatch (s : SelectionSpec) (occs : List DataOccurrence) : Bool :=
  occs.any (fun occ =>
    (candidateCodes s occ).any (fun code =>
      subfieldValue occ code != "" && criterionOk s (subfieldValue occ code)))

/-- `selectionSpec.match`: wildcard on an empty field; for a control field the
value must exist and pass the criterion; for a data field the occurrences are
scanned per `dataFieldMatch`. -/
def specMatch (s : SelectionSpec) (r : MarcRecord) : Bool :=
  if s.field = "" then true
  else if isControlFieldTag s.field then
    match r.controlValue s.field with
    | none => false
    | some v => criterionOk s v
  else dataFieldMatch s (r.dataOccurrences s.field)

/-! ## Rendering (`printRecord`, `printDataField`) -/

/-- `printDataField`: one output line per occurrence, consisting of the field
tag, a tab, the occurrence's indicators and each subfield rendered as
`$<code><value>` (the value fetched through `GetNthSubfield`). -/
def printDataField (tag : String) (occs : List DataOccurrence) : List String :=
  occs.map (fun occ =>
    tag ++ "\t" ++ occ.indicators ++
      String.join ((subfieldCodes occ).map (fun code => "$" ++ code ++ subfieldValue occ code)))

/-- `printRecord`: the leader line followed by every field of the record's
field list — a control field as `tag<TAB>value`, a data field through
`printDataField`. The `-f` field list (`fieldsOpt`) is never consulted: the
source renders all fields unconditionally. -/
def printRecord (r : MarcRecord) : List String :=
  ("Leader\t" ++ r.leader) ::
    r.fieldList.flatMap (fun f =>
      if isControlFieldTag f then [f ++ "\t" ++ ((r.controlValue f).getD "")]
      else printDataField f (r.dataOccurrences f))

/-! ## Driver (`getActionFunction` and the loop of `main`) -/

/-- `actionFunc`, with the tabwriter abstracted to the list of lines the
action writes to standard output. -/
def ActionFn := MarcRecord → List String

/-- `getActionFunction`: `nil` when an index file was requested with
`-mkindex`, otherwise `printRecord`. -/
def getActionFunction (makeIndex : String) : Option ActionFn :=
  if makeIndex = "" then some printRecord else none

/-- One result of `reader.Next()`: a decoded record or a decode error. The end
of the stream (`nil` record, `nil` error) is the end of the list. -/
inductive DecodeItem where
  | record (r : MarcRecord)
  | decodeErr (e : String)
  deriving Repr, DecidableEq

/-- The observable outcome of the record loop of `main`: the lines rendered to
standard output, the diagnostics written to standard error, the stream items
never read, and whether the run died calling a `nil` action function (a Go
runtime panic). -/
structure DriverOutcome where
  rendered : List String
  stderrMsgs : List String
  leftover : List DecodeItem
  panicked : Bool
  deriving Repr, DecidableEq

/-- Width of Go's `uint` on the modelled platform (LP64: `GOARCH=amd64` or
`arm64`), the type of `maxRecords` and `recordCount`. -/
def uintBits : Nat := 64

/-- The default of the `-m` flag: `math.MaxUint32`. -/
def maxRecordsDefault : Nat := 2 ^ 32 - 1

/-- The record loop of `main`: pull items until the end of the stream; report
a decode error and stop; evaluate the selector on each record, and on a match
invoke the action (a `nil` action is a panic), increment `recordCount` (a
`uint`, hence modulo `2 ^ uintBits`) and stop once it equals `maxRecords`. -/
def runLoop (action : Option ActionFn) (mx : Nat) (sel : SelectionSpec) :
    List DecodeItem → Nat → DriverOutcome
  | [], _ => ⟨[], [], [], false⟩
  | DecodeItem.decodeErr e :: rest, _ => ⟨[], [e], rest, false⟩
  | DecodeItem.record r :: rest, cnt =>
    if specMatch sel r then
      match action with
      | none => ⟨[], [], rest, true⟩
      | some f =>
        let cnt' := (cnt + 1) % 2 ^ uintBits
        if cnt' = mx then ⟨f r, [], rest, false⟩
        else
          let o := runLoop action mx sel rest cnt'
          ⟨f r ++ o.rendered, o.stderrMsgs, o.leftover, o.panicked⟩
    else runLoop action mx sel rest cnt

/-- `main` after flag parsing and file opening: resolve the action function
(reporting an internal error on `nil` but continuing), then run the record
loop with a zero counter. -/
def runMain (makeIndex : String) (mx : Nat) (sel : SelectionSpec)
    (stream : List DecodeItem) : DriverOutcome :=
  let action := getActionFunction makeIndex
  let o := runLoop action mx sel stream 0
  { o with stderrMsgs :=
      (if action.isNone then ["Internal Error: could not get action function"] else [])
        ++ o.stderrMsgs }

/-- The process exit status of a finished run: `main` returns normally (status
`0`) in every path of the loop — including after reporting a decode error —
while a Go runtime panic (the `nil` action call) terminates with status `2`. -/
def exitCode (o : DriverOutcome) : Nat :=
  if o.panicked then 2 else 0

/-- Whether scanning the stream in order reaches a record matching the
selector before the end of the stream or a decode error — the exact condition
under which the loop invokes the action function. -/
def hitsMatchingRecord (sel : SelectionSpec) : List DecodeItem → Bool
  | [] => false
  | DecodeItem.decodeErr _ :: _ => false
  | DecodeItem.record r :: rest => specMatch sel r || hitsMatchingRecord sel rest

/-! ## Specification-side descriptions of the selector grammar -/

/-- The selector grammar as the source's regular expression defines it:
`s = FIELD [_SUBFIELD] [=PATTERN]` with a three-character alphanumeric field,
an optional one-character `[0-9a-z]` subfield, and an optional non-empty
pattern in which `.` excludes newlines (Go's default dot). -/
def SelectorShape (s f sub pat : String) : Prop :=
  f.data.length = 3 ∧ f.data.all isAlnumChar = true ∧
  (sub = "" ∨ ∃ c : Char, isSubfieldChar c = true ∧ sub = String.mk [c]) ∧
  (pat = "" ∨ pat.data.all (fun d => d != '\n') = true) ∧
  s.data = f.data ++ (if sub = "" then [] else '_' :: sub.data) ++
    (if pat = "" then [] else '=' :: pat.data)

/-- The selector grammar exactly as the claim states it: the same shape but
with the pattern an arbitrary non-empty string ("one or more characters"). -/
def ClaimSelectorShape (s f sub pat : String) : Prop :=
  f.data.length = 3 ∧ f.data.all isAlnumChar = true ∧
  (sub = "" ∨ ∃ c : Char, isSubfieldChar c = true ∧ sub = String.mk [c]) ∧
  s.data = f.data ++ (if sub = "" then [] else '_' :: sub.data) ++
    (if pat = "" then [] else '=' :: pat.data)

/-! ## Concrete sample data -/

/-- A record with nothing beyond a leader. -/
def emptyRecord : MarcRecord := ⟨"", [], [], []⟩

/-- A record with control field 001 and data fields 650 (two occurrences) and
700: its tag multiset is `["001", "650", "650", "700"]`. -/
def sampleRec650 : MarcRecord :=
  { leader := "LDR"
    fieldList := ["001", "650", "700"]
    controlValues := [("001", "abc")]
    dataFields :=
      [("650", [⟨" 0", [("a", "Fiction")]⟩, ⟨" 0", [("a", "History")]⟩]),
       ("700", [⟨"1 ", [("a", "Smith")]⟩])] }

/-- A record whose control field 001 holds `"9780"`. -/
def rec001 : MarcRecord := ⟨"", ["001"], [("001", "9780")], []⟩

/-- A compiled expression whose anchored language is exactly `{"78"}`. -/
def re78 : GoRegexp := ⟨fun t => t == "78"⟩

/-- A compiled expression accepting every string. -/
def reTrue : GoRegexp := ⟨fun _ => true⟩

/-- The wildcard spec produced from an empty selector string. -/
def wildcardSpec : SelectionSpec := ⟨"", "", none⟩

/-! ## Helper lemmas -/

/-- A character list is a segment of `l` exactly when it sits between some
prefix and suffix of `l`. -/
theorem mem_segmentsOf {l m : List Char} :
    m ∈ segmentsOf l ↔ ∃ p q : List Char, p ++ m ++ q = l := by
  constructor
  · intro hm
    simp only [segmentsOf, List.mem_flatMap, List.mem_map, List.mem_range] at hm
    obtain ⟨i, _, n, _, rfl⟩ := hm
    refine ⟨l.take i, (l.drop i).drop n, ?_⟩
    rw [List.append_assoc, List.take_append_drop, List.take_append_drop]
  · rintro ⟨p, q, rfl⟩
    simp only [segmentsOf, List.mem_flatMap, List.mem_map, List.mem_range]
    refine ⟨p.length, by simp; omega, m.length, by simp; omega, ?_⟩
    rw [List.append_assoc, List.drop_left, List.take_left]

/-- A string is in `substringsOf v` exactly when it is a contiguous substring
of `v`. -/
theorem mem_substringsOf {v t : String} :
    t ∈ substringsOf v ↔ ∃ pre post : String, pre ++ t ++ post = v := by
  constructor
  · intro ht
    simp only [substringsOf, List.mem_map] at ht
    obtain ⟨m, hm, rfl⟩ := ht
    obtain ⟨p, q, hpq⟩ := mem_segmentsOf.mp hm
    exact ⟨String.mk p, String.mk q, by
      apply String.ext
      simpa [String.data_append] using hpq⟩
  · rintro ⟨pre, post, rfl⟩
    simp only [substringsOf, List.mem_map]
    exact ⟨t.data, mem_segmentsOf.mpr ⟨pre.data, post.data, by simp [String.data_append]⟩, rfl⟩

/-- `criterionOk` holds exactly when every set criterion finds a match. -/
theorem criterionOk_eq_true_iff {s : SelectionSpec} {v : String} :
    criterionOk s v = true ↔ ∀ re, s.criterion = some re → reSearch re v = true := by
  cases h : s.criterion <;> simp [criterionOk, h]

/-- Membership in the candidate codes of one occurrence. -/
theorem mem_candidateCodes {s : SelectionSpec} {occ : DataOccurrence} {code : String} :
    code ∈ candidateCodes s occ ↔
      (s.subfield ≠ "" ∧ code = s.subfield) ∨ (s.subfield = "" ∧ code ∈ subfieldCodes occ) := by
  by_cases h : s.subfield = "" <;> simp [candidateCodes, h]

/-- On a non-empty data-field tag, `specMatch` is the data-field scan. -/
theorem specMatch_data {s : SelectionSpec} {r : MarcRecord}
    (hf : s.field ≠ "") (hd : isControlFieldTag s.field = false) :
    specMatch s r = dataFieldMatch s (r.dataOccurrences s.field) := by
  simp [specMatch, hf, hd]

/-- The data-field scan succeeds exactly when some occurrence has a candidate
code with a non-empty value passing the criterion. -/
theorem dataFieldMatch_eq_true_iff {s : SelectionSpec} {occs : List DataOccurrence} :
    dataFieldMatch s occs = true ↔
      ∃ occ ∈ occs, ∃ code ∈ candidateCodes s occ,
        subfieldValue occ code ≠ "" ∧ criterionOk s (subfieldValue occ code) = true := by
  simp [dataFieldMatch, List.any_eq_true, Bool.and_eq_true, bne_iff_ne]

/-- Inversion of the pattern group: a successful parse means a non-empty
newline-free pattern taken verbatim. -/
theorem parsePat_sound {p : List Char} {ps : String} (h : parsePat p = some ps) :
    p ≠ [] ∧ p.all (fun d => d != '\n') = true ∧ ps = String.mk p := by
  by_cases h1 : p.isEmpty <;> by_cases h2 : p.all (fun d => d != '\n') <;>
    simp [parsePat, h1, h2] at h
  exact ⟨by simpa [List.isEmpty_iff] using h1, h2, h.symm⟩

/-- The pattern group succeeds on a non-empty newline-free character list. -/
theorem parsePat_complete {p : List Char} (h1 : p ≠ [])
    (h2 : p.all (fun d => d != '\n') = true) : parsePat p = some (String.mk p) := by
  simp [parsePat, List.isEmpty_iff, h1, h2]

/-- Inversion of the optional-group parse: a successful parse of the selector
tail decomposes it into the optional `_subfield` and `=pattern` parts. -/
theorem parseTail_sound {l : List Char} {sub pat : String}
    (h : parseTail l = some (sub, pat)) :
    (sub = "" ∨ ∃ c : Char, isSubfieldChar c = true ∧ sub = String.mk [c]) ∧
    (pat = "" ∨ pat.data.all (fun d => d != '\n') = true) ∧
    l = (if sub = "" then [] else '_' :: sub.data) ++
      (if pat = "" then [] else '=' :: pat.data) := by
  match l with
  | [] =>
    simp only [parseTail, Option.some.injEq, Prod.mk.injEq] at h
    obtain ⟨rfl, rfl⟩ := h
    exact ⟨Or.inl rfl, Or.inl rfl, rfl⟩
  | c0 :: rest0 =>
    by_cases he : c0 = '='
    · subst he
      cases hps : parsePat rest0 with
      | none => simp [parseTail, hps] at h
      | some ps =>
        simp only [parseTail, if_pos rfl, hps, Option.map_some, Option.some.injEq,
          Prod.mk.injEq] at h
        obtain ⟨rfl, rfl⟩ := h
        obtain ⟨hne, hall, rfl⟩ := parsePat_sound hps
        have hpne : String.mk rest0 ≠ "" := by
          intro hcon
          exact hne (by simpa using congrArg String.data hcon)
        refine ⟨Or.inl rfl, Or.inr (by simpa using hall), ?_⟩
        simp [hpne]
    · by_cases hu : c0 = '_'
      · subst hu
        match rest0 with
        | [] => simp [parseTail] at h
        | c :: rest =>
          by_cases hsc : isSubfieldChar c
          · match rest with
            | [] =>
              simp [parseTail, hsc, Prod.mk.injEq] at h
              obtain ⟨rfl, rfl⟩ := h
              refine ⟨Or.inr ⟨c, hsc, rfl⟩, Or.inl rfl, ?_⟩
              simp [show String.mk [c] ≠ "" from by
                intro hcon; simpa using congrArg String.data hcon]
            | d :: p =>
              by_cases hd : d = '='
              · subst hd
                cases hps : parsePat p with
                | none => simp [parseTail, hps, hsc] at h
                | some ps =>
                  simp [parseTail, hsc, hps, Prod.mk.injEq] at h
                  obtain ⟨rfl, rfl⟩ := h
                  obtain ⟨hne, hall, rfl⟩ := parsePat_sound hps
                  have hsne : String.mk [c] ≠ "" := by
                    intro hcon; simpa using congrArg String.data hcon
                  have hpne : String.mk p ≠ "" := by
                    intro hcon; exact hne (by simpa using congrArg String.data hcon)
                  refine ⟨Or.inr ⟨c, hsc, rfl⟩, Or.inr (by simpa using hall), ?_⟩
                  simp [hsne, hpne]
              · simp [parseTail, hsc, hd] at h
          · simp [parseTail, hsc] at h
      · simp [parseTail, he, hu] at h

/-- The optional-group parse succeeds on every well-shaped selector tail. -/
theorem parseTail_complete {sub pat : String}
    (hsub : sub = "" ∨ ∃ c : Char, isSubfieldChar c = true ∧ sub = String.mk [c])
    (hpat : pat = "" ∨ pat.data.all (fun d => d != '\n') = true) :
    parseTail ((if sub = "" then [] else '_' :: sub.data) ++
      (if pat = "" then [] else '=' :: pat.data)) = some (sub, pat) := by
  have patCase : pat ≠ "" → parsePat pat.data = some pat := by
    intro hp
    rcases hpat with rfl | hall
    · exact absurd rfl hp
    · have hne : pat.data ≠ [] := by
        intro hcon
        exact hp (String.ext (by simpa using hcon))
      simpa using parsePat_complete hne hall
  rcases hsub with rfl | ⟨c, hc, rfl⟩
  · by_cases hp : pat = ""
    · subst hp; rfl
    · simp [hp, parseTail, patCase hp]
  · have hsne : String.mk [c] ≠ "" := by
      intro hcon; simpa using congrArg String.data hcon
    by_cases hp : pat = ""
    · subst hp
      simp [hsne, parseTail, hc]
    · simp [hsne, hp, parseTail, hc, patCase hp]

/-- `selectionSpecRegexp` accepts every selector of the grammar's shape and
returns exactly its three components. -/
theorem parseSelectorGroups_complete {s f sub pat : String}
    (h : SelectorShape s f sub pat) : parseSelectorGroups s = some (f, sub, pat) := by
  obtain ⟨h3, halnum, hsub, hpat, hdata⟩ := h
  have htake : s.data.take 3 = f.data := by
    rw [hdata, List.append_assoc, ← h3, List.take_left]
  have hdrop : s.data.drop 3 =
      (if sub = "" then [] else '_' :: sub.data) ++
        (if pat = "" then [] else '=' :: pat.data) := by
    rw [hdata, List.append_assoc, ← h3, List.drop_left]
  have hlen : ¬ s.data.length < 3 := by
    rw [hdata]
    simp [List.length_append, h3]
  unfold parseSelectorGroups
  rw [if_neg hlen, htake, hdrop, halnum, parseTail_complete hsub hpat]
  simp

/-- Every selector accepted by `selectionSpecRegexp` has the grammar's shape,
with exactly the returned components. -/
theorem parseSelectorGroups_sound {s f sub pat : String}
    (h : parseSelectorGroups s = some (f, sub, pat)) : SelectorShape s f sub pat := by
  unfold parseSelectorGroups at h
  by_cases h1 : s.data.length < 3
  · rw [if_pos h1] at h
    exact Option.noConfusion h
  · rw [if_neg h1] at h
    by_cases h2 : (s.data.take 3).all isAlnumChar
    · rw [h2] at h
      cases hpt : parseTail (s.data.drop 3) with
      | none => simp [hpt] at h
      | some pr =>
        obtain ⟨sub0, pat0⟩ := pr
        simp only [hpt, Option.map_some, Option.some.injEq, Prod.mk.injEq] at h
        obtain ⟨rfl, rfl, rfl⟩ := h
        obtain ⟨hs1, hs2, hs3⟩ := parseTail_sound hpt
        refine ⟨?_, ?_, hs1, hs2, ?_⟩
        · show (s.data.take 3).length = 3
          rw [List.length_take]
          omega
        · exact h2
        · rw [List.append_assoc]
          change s.data = s.data.take 3 ++
            ((if sub0 = "" then [] else '_' :: sub0.data) ++
              (if pat0 = "" then [] else '=' :: pat0.data))
          rw [← hs3, List.take_append_drop]
    · simp [h2] at h

/-- A selector with no grammar decomposition is rejected by
`selectionSpecRegexp`. -/
theorem parseSelectorGroups_none {s : String}
    (h : ∀ f sub pat, ¬ SelectorShape s f sub pat) : parseSelectorGroups s = none := by
  cases hp : parseSelectorGroups s with
  | none => rfl
  | some t =>
    obtain ⟨f, sub, pat⟩ := t
    exact absurd (parseSelectorGroups_sound hp) (h f sub pat)

/-- The loop never panics when the action function is non-`nil`. -/
theorem runLoop_some_not_panicked (f : ActionFn) (mx : Nat) (sel : SelectionSpec)
    (stream : List DecodeItem) : ∀ cnt, (runLoop (some f) mx sel stream cnt).panicked = false := by
  induction stream with
  | nil => intro cnt; rfl
  | cons item rest ih =>
    intro cnt
    cases item with
    | decodeErr e => rfl
    | record r =>
      by_cases hm : specMatch sel r
      · by_cases hc : (cnt + 1) % 2 ^ uintBits = mx
        · simp [runLoop, hm, hc]
        · simp [runLoop, hm, hc, ih]
      · simp [runLoop, hm, ih]

/-- When the limit value is never reached by the counter, the loop renders
exactly the matching records of an error-free stream, in order. -/
theorem runLoop_unbounded (f : ActionFn) (mx : Nat) (sel : SelectionSpec) :
    ∀ (rs : List MarcRecord) (cnt : Nat),
      cnt + rs.length < 2 ^ uintBits →
      (∀ j, cnt < j → j ≤ cnt + rs.length → j ≠ mx) →
      runLoop (some f) mx sel (rs.map DecodeItem.record) cnt =
        ⟨(rs.filter (fun r => specMatch sel r)).flatMap f, [], [], false⟩ := by
  intro rs
  induction rs with
  | nil => intro cnt _ _; rfl
  | cons r rs ih =>
    intro cnt hlen hrange
    have hmod : (cnt + 1) % 2 ^ uintBits = cnt + 1 := by
      apply Nat.mod_eq_of_lt
      simp only [List.length_cons] at hlen
      omega
    by_cases hm : specMatch sel r
    · have hne : cnt + 1 ≠ mx :=
        hrange (cnt + 1) (Nat.lt_succ_self cnt) (by simp only [List.length_cons]; omega)
      have ihx := ih (cnt + 1) (by simp at hlen ⊢; omega)
        (fun j h1 h2 => hrange j (by omega) (by simp at h2 ⊢; omega))
      simp [runLoop, hm, hmod, hne, ihx, List.filter_cons, List.flatMap_cons]
    · have ihx := ih cnt (by simp at hlen ⊢; omega)
        (fun j h1 h2 => hrange j h1 (by simp at h2 ⊢; omega))
      simp [runLoop, hm, ihx, List.filter_cons]

/-- With a `nil` action the loop renders nothing and panics exactly when the
stream reaches a matching record. -/
theorem runLoop_none (mx : Nat) (sel : SelectionSpec) (stream : List DecodeItem) :
    ∀ cnt, (runLoop none mx sel stream cnt).rendered = [] ∧
      (runLoop none mx sel stream cnt).panicked = hitsMatchingRecord sel stream := by
  induction stream with
  | nil => intro cnt; exact ⟨rfl, rfl⟩
  | cons item rest ih =>
    intro cnt
    cases item with
    | decodeErr e => exact ⟨rfl, rfl⟩
    | record r =>
      by_cases hm : specMatch sel r
      · simp [runLoop, hm, hitsMatchingRecord]
      · simp [runLoop, hm, hitsMatchingRecord, ih cnt]

/-! ## Claim theorems -/

/-- Claim C1 (code bug): the field projection is never applied. The `-f` flag
(`fieldsOpt`) is parsed but never read, and `printRecord` renders every field
of the record unconditionally: on a record with tags 001, 650, 650, 700 and
projection `{"650"}` the rendered output still contains the 001 and 700 lines,
contradicting the claim that only the projected tags are rendered. -/
theorem C1_projection_never_applied :
    printRecord sampleRec650 =
      ["Leader\tLDR", "001\tabc", "650\t 0$aFiction", "650\t 0$aHistory", "700\t1 $aSmith"] ∧
    "001\tabc" ∈ printRecord sampleRec650 ∧ "700\t1 $aSmith" ∈ printRecord sampleRec650 := by
  exact ⟨rfl, by decide, by decide⟩

/-- Claim C2, counterexample: with `-mkindex` set, processing a matching
record is not a silent no-op — `main` reports an internal error on standard
error and the loop then calls the `nil` action on the first matching record,
which is a crash (Go nil-function panic), not a no-op. -/
theorem C2_counterexample :
    specMatch wildcardSpec sampleRec650 = true ∧
    (runMain "idx" 8 wildcardSpec [DecodeItem.record sampleRec650]).stderrMsgs =
      ["Internal Error: could not get action function"] ∧
    (runMain "idx" 8 wildcardSpec [DecodeItem.record sampleRec650]).panicked = true := by
  exact ⟨rfl, rfl, rfl⟩

/-- Claim C2 as amended: when `-mkindex` is supplied the action resolver
returns no action, `main` reports an internal-error diagnostic but continues,
no output is ever rendered, and the run crashes (invokes the `nil` action)
exactly when the stream reaches a record matching the selector before the end
of the stream or a decode error. -/
theorem C2_index_action_crashes (mkIdx : String) (h : mkIdx ≠ "") (mx : Nat)
    (sel : SelectionSpec) (stream : List DecodeItem) :
    getActionFunction mkIdx = none ∧
    "Internal Error: could not get action function" ∈ (runMain mkIdx mx sel stream).stderrMsgs ∧
    (runMain mkIdx mx sel stream).rendered = [] ∧
    (runMain mkIdx mx sel stream).panicked = hitsMatchingRecord sel stream := by
  have ha : getActionFunction mkIdx = none := by
    simp [getActionFunction, h]
  have hl := runLoop_none mx sel stream 0
  refine ⟨ha, ?_, ?_, ?_⟩
  · simp [runMain, ha]
  · simp [runMain, ha, hl.1]
  · simp [runMain, ha, hl.2]

/-- Claim C2, witness for the amended theorem at a concrete input. -/
theorem C2_witness :
    getActionFunction "idx" = none ∧
    (runMain "idx" 5 wildcardSpec [DecodeItem.record emptyRecord]).panicked = true := by
  have h := C2_index_action_crashes "idx" (by decide) 5 wildcardSpec
    [DecodeItem.record emptyRecord]
  exact ⟨h.1, h.2.2.2.trans (by rfl)⟩

/-- Claim C3, counterexample: a decode error is reported and stops the run,
but the process then exits with status 0 — `main` merely breaks out of the
loop and returns — not with status 1 as the claim states. -/
theorem C3_counterexample :
    (runMain "" 10 wildcardSpec [DecodeItem.decodeErr "bad leader"]).stderrMsgs =
      ["bad leader"] ∧
    exitCode (runMain "" 10 wildcardSpec [DecodeItem.decodeErr "bad leader"]) = 0 ∧
    exitCode (runMain "" 10 wildcardSpec [DecodeItem.decodeErr "bad leader"]) ≠ 1 := by
  exact ⟨rfl, rfl, by decide⟩

/-- Claim C3 as amended: on a decode error the driver reports the error and
stops iterating immediately (the rest of the stream is never read), and the
process terminates with exit code 0 — the same status as normal completion;
indeed every non-indexing run exits 0. -/
theorem C3_decode_error_reported_exit_zero (mx : Nat) (sel : SelectionSpec) (e : String)
    (rest : List DecodeItem) :
    (runMain "" mx sel (DecodeItem.decodeErr e :: rest)).stderrMsgs = [e] ∧
    (runMain "" mx sel (DecodeItem.decodeErr e :: rest)).leftover = rest ∧
    ∀ stream : List DecodeItem, exitCode (runMain "" mx sel stream) = 0 := by
  refine ⟨rfl, rfl, ?_⟩
  intro stream
  simp [runMain, exitCode, getActionFunction, runLoop_some_not_panicked]

/-- Claim C4: for a data-field selector, `match` succeeds exactly when some
occurrence has a candidate subfield (the spec's code if set, else a code of
that occurrence) whose value is non-empty and passes the criterion when one is
set; an absent field never matches, and a value in a different subfield than
the one named never causes a match. -/
theorem C4_data_field_match (s : SelectionSpec) (r : MarcRecord)
    (hf : s.field ≠ "") (hd : isControlFieldTag s.field = false) :
    (specMatch s r = true ↔
      ∃ occ ∈ r.dataOccurrences s.field, ∃ code : String,
        ((s.subfield ≠ "" ∧ code = s.subfield) ∨
          (s.subfield = "" ∧ code ∈ subfieldCodes occ)) ∧
        subfieldValue occ code ≠ "" ∧
        (∀ re, s.criterion = some re → reSearch re (subfieldValue occ code) = true)) ∧
    (r.dataOccurrences s.field = [] → specMatch s r = false) ∧
    (s.subfield ≠ "" → specMatch s r = true →
      ∃ occ ∈ r.dataOccurrences s.field, subfieldValue occ s.subfield ≠ "") := by
  have hmain : specMatch s r = dataFieldMatch s (r.dataOccurrences s.field) :=
    specMatch_data hf hd
  have hiff : specMatch s r = true ↔
      ∃ occ ∈ r.dataOccurrences s.field, ∃ code : String,
        ((s.subfield ≠ "" ∧ code = s.subfield) ∨
          (s.subfield = "" ∧ code ∈ subfieldCodes occ)) ∧
        subfieldValue occ code ≠ "" ∧
        (∀ re, s.criterion = some re → reSearch re (subfieldValue occ code) = true) := by
    rw [hmain, dataFieldMatch_eq_true_iff]
    simp only [mem_candidateCodes, criterionOk_eq_true_iff]
  refine ⟨hiff, ?_, ?_⟩
  · intro h0
    rw [hmain, h0]
    rfl
  · intro hsub hm
    obtain ⟨occ, hocc, code, hcand, hne, _⟩ := hiff.mp hm
    rcases hcand with ⟨_, rfl⟩ | ⟨h0, _⟩
    · exact ⟨occ, hocc, hne⟩
    · exact absurd h0 hsub

/-- Claim C4, witness: a data-field selector on a record without the field. -/
theorem C4_witness : specMatch ⟨"650", "a", none⟩ emptyRecord = false :=
  (C4_data_field_match ⟨"650", "a", none⟩ emptyRecord (by decide) rfl).2.1 rfl

/-- Claim C5: for a control-field selector, an absent value never matches; a
present value with a criterion matches exactly when the pattern matches
somewhere in the value (substring search, not anchored); a present value with
no criterion always matches. -/
theorem C5_control_field_match (s : SelectionSpec) (r : MarcRecord)
    (hf : s.field ≠ "") (hc : isControlFieldTag s.field = true) :
    (r.controlValue s.field = none → specMatch s r = false) ∧
    ∀ v : String, r.controlValue s.field = some v →
      (s.criterion = none → specMatch s r = true) ∧
      ∀ re : GoRegexp, s.criterion = some re →
        (specMatch s r = true ↔
          ∃ t : String, (∃ pre post : String, pre ++ t ++ post = v) ∧
            re.accepts t = true) := by
  refine ⟨?_, ?_⟩
  · intro h0
    simp [specMatch, hf, hc, h0]
  · intro v hv
    refine ⟨?_, ?_⟩
    · intro hcrit
      simp [specMatch, hf, hc, hv, criterionOk, hcrit]
    · intro re hre
      have : specMatch s r = reSearch re v := by
        simp [specMatch, hf, hc, hv, criterionOk, hre]
      rw [this, reSearch, List.any_eq_true]
      constructor
      · rintro ⟨t, ht, hacc⟩
        exact ⟨t, mem_substringsOf.mp ht, hacc⟩
      · rintro ⟨t, hsubstr, hacc⟩
        exact ⟨t, mem_substringsOf.mpr hsubstr, hacc⟩

/-- Claim C5, witness: `"78"` is found inside the control value `"9780"`. -/
theorem C5_witness : specMatch ⟨"001", "", some re78⟩ rec001 = true :=
  (((C5_control_field_match ⟨"001", "", some re78⟩ rec001 (by decide) rfl).2
      "9780" rfl).2 re78 rfl).mpr ⟨"78", ⟨"9", "0", rfl⟩, rfl⟩

/-- Claim C6, counterexample: `"020=\n"` conforms to the claim's grammar (three
alphanumeric characters, then `'='` plus a one-character pattern) and its
pattern compiles under a total compiler, yet parsing fails with
`InvalidSelectorSpec`: Go's `.` in `selectionSpecRegexp` does not match a
newline, so the grammar's pattern part is narrower than "one or more
characters". -/
theorem C6_counterexample :
    ClaimSelectorShape "020=\n" "020" "" "\n" ∧
    getSelectionSpec (fun _ => Except.ok reTrue) "020=\n" =
      Except.error SelectorError.invalidSelectorSpec := by
  exact ⟨⟨by decide, by decide, Or.inl rfl, by decide⟩, rfl⟩

/-- Claim C6 as amended: for every non-empty selector string, if it conforms
to the grammar with a pattern of one or more *non-newline* characters then
parsing succeeds with exactly those components when the pattern compiles (or
yields no criterion when there is no pattern), fails with the compile
diagnostic when it does not, and any selector with no such decomposition fails
with `InvalidSelectorSpec`. -/
theorem C6_selector_parse (compile : String → Except String GoRegexp) (s : String)
    (hs : s ≠ "") :
    (∀ f sub pat : String, SelectorShape s f sub pat →
      (pat = "" → getSelectionSpec compile s = Except.ok ⟨f, sub, none⟩) ∧
      (∀ re : GoRegexp, compile pat = Except.ok re → pat ≠ "" →
        getSelectionSpec compile s = Except.ok ⟨f, sub, some re⟩) ∧
      (∀ e : String, compile pat = Except.error e → pat ≠ "" →
        getSelectionSpec compile s = Except.error (SelectorError.patternCompileError e))) ∧
    ((∀ f sub pat : String, ¬ SelectorShape s f sub pat) →
      getSelectionSpec compile s = Except.error SelectorError.invalidSelectorSpec) := by
  constructor
  · intro f sub pat hshape
    have hp := parseSelectorGroups_complete hshape
    refine ⟨?_, ?_, ?_⟩
    · intro hpat
      simp [getSelectionSpec, hs, hp, hpat]
    · intro re hre hpat
      simp [getSelectionSpec, hs, hp, hpat, hre]
    · intro e he hpat
      simp [getSelectionSpec, hs, hp, hpat, he]
  · intro hnone
    simp [getSelectionSpec, hs, parseSelectorGroups_none hnone]

/-- Claim C6, witness for the amended theorem: the selector `"020_a=978"`
parses into field `020`, subfield `a` and a compiled criterion. -/
theorem C6_witness :
    getSelectionSpec (fun _ => Except.ok reTrue) "020_a=978" =
      Except.ok ⟨"020", "a", some reTrue⟩ :=
  ((C6_selector_parse (fun _ => Except.ok reTrue) "020_a=978" (by decide)).1
    "020" "a" "978"
    ⟨by decide, by decide, Or.inr ⟨'a', by decide, by decide⟩, Or.inr (by decide),
      by decide⟩).2.1 reTrue rfl (by decide)

/-- Claim C7: an empty selector string parses into the wildcard spec (empty
field, no subfield, no criterion), and that spec matches every record,
including one with nothing beyond a leader. -/
theorem C7_wildcard :
    (∀ compile : String → Except String GoRegexp,
      getSelectionSpec compile "" = Except.ok wildcardSpec) ∧
    (∀ r : MarcRecord, specMatch wildcardSpec r = true) ∧
    specMatch wildcardSpec emptyRecord = true :=
  ⟨fun _ => rfl, fun _ => rfl, rfl⟩

/-- Claim C8: `match` is a total boolean function, and all the absent-data
cases — missing control value, entirely absent data field, or a requested
subfield empty in every occurrence — yield `false`, never an error. -/
theorem C8_match_total (s : SelectionSpec) (r : MarcRecord) :
    (∃ b : Bool, specMatch s r = b) ∧
    (s.field ≠ "" → isControlFieldTag s.field = true →
      r.controlValue s.field = none → specMatch s r = false) ∧
    (s.field ≠ "" → isControlFieldTag s.field = false →
      r.dataOccurrences s.field = [] → specMatch s r = false) ∧
    (s.field ≠ "" → isControlFieldTag s.field = false → s.subfield ≠ "" →
      (∀ occ ∈ r.dataOccurrences s.field, subfieldValue occ s.subfield = "") →
      specMatch s r = false) := by
  refine ⟨⟨specMatch s r, rfl⟩, ?_, ?_, ?_⟩
  · intro hf hc h0
    simp [specMatch, hf, hc, h0]
  · intro hf hd h0
    rw [specMatch_data hf hd, h0]
    rfl
  · intro hf hd hsub hall
    rw [specMatch_data hf hd]
    simp only [dataFieldMatch, candidateCodes, if_neg hsub]
    rw [List.any_eq_false]
    intro occ hocc
    simp [hall occ hocc]

/-- Claim C8, witness: an absent control field is a non-match, not an error. -/
theorem C8_witness : specMatch ⟨"001", "", none⟩ emptyRecord = false :=
  (C8_match_total ⟨"001", "", none⟩ emptyRecord).2.1 (by decide) rfl rfl

/-- Claim C9, counterexample: the default of `-m` is `math.MaxUint32`, which
is not the largest representable value of the counter type — `maxRecords` and
`recordCount` are Go `uint`s, 64 bits wide on the modelled platform. -/
theorem C9_counterexample : maxRecordsDefault ≠ 2 ^ uintBits - 1 := by
  decide

/-- Claim C9 as amended: the `-m` default is `2^32 - 1` (`math.MaxUint32`),
strictly below the largest value of the 64-bit counter type, and the run is
still effectively unbounded: any error-free stream with fewer than `2^32 - 1`
records is rendered in full under the default limit. -/
theorem C9_default_maxuint32 :
    maxRecordsDefault = 2 ^ 32 - 1 ∧ maxRecordsDefault < 2 ^ uintBits - 1 ∧
    ∀ (sel : SelectionSpec) (rs : List MarcRecord), rs.length < maxRecordsDefault →
      (runMain "" maxRecordsDefault sel (rs.map DecodeItem.record)).rendered =
        (rs.filter (fun r => specMatch sel r)).flatMap printRecord := by
  refine ⟨rfl, by decide, ?_⟩
  intro sel rs hlen
  have h := runLoop_unbounded printRecord maxRecordsDefault sel rs 0
    (by have : maxRecordsDefault < 2 ^ uintBits := by decide
        omega)
    (by intro j h1 h2
        have : maxRecordsDefault < 2 ^ uintBits := by decide
        omega)
  simp [runMain, getActionFunction, h]

/-- Claim C9, witness for the amended theorem at a concrete input. -/
theorem C9_witness :
    (runMain "" maxRecordsDefault wildcardSpec [DecodeItem.record emptyRecord]).rendered =
      ["Leader\t"] :=
  (C9_default_maxuint32.2.2 wildcardSpec [emptyRecord] (by decide)).trans rfl

/-- Claim C10: with `-m 0` the limit is never reached — the counter is
compared for equality only after being incremented past zero — so every
matching record of the stream is rendered, not none. -/
theorem C10_limit_zero_unbounded (sel : SelectionSpec) (rs : List MarcRecord)
    (h : rs.length < 2 ^ uintBits) :
    (runMain "" 0 sel (rs.map DecodeItem.record)).rendered =
      (rs.filter (fun r => specMatch sel r)).flatMap printRecord ∧
    (runMain "" 0 sel (rs.map DecodeItem.record)).panicked = false := by
  have hrun := runLoop_unbounded printRecord 0 sel rs 0 (by omega)
    (fun j h1 _ => by omega)
  constructor
  · simp [runMain, getActionFunction, hrun]
  · simp [runMain, getActionFunction, hrun]

/-- Claim C10, witness: with `-m 0` both records of a two-record stream are
rendered. -/
theorem C10_witness :
    (runMain "" 0 wildcardSpec
        [DecodeItem.record rec001, DecodeItem.record emptyRecord]).rendered =
      ["Leader\t", "001\t9780", "Leader\t"] :=
  ((C10_limit_zero_unbounded wildcardSpec [rec001, emptyRecord] (by decide)).1).trans rfl

end Marcdump
